import Mathlib

/-!
Verification of the Ralph-loop tool registry and dispatch layer.

Shallow embedding of `src/main.go`: the tool catalog, the per-tool argument
validation, the four tool implementations (`executeCalculate`,
`executeGetCurrentTime`, `executeValidateEmail`, `executeTextAnalysis`) and the
dispatcher `executeFunctionSafely`.

Modelling conventions:

* A Go `map[string]interface{}` argument bag becomes an association list
  `ArgumentBag`; a Go type assertion `args[k].(T)` becomes a typed lookup that
  succeeds exactly when the key is present with a value of that dynamic type.
* Go `float64` numbers supplied by callers are modelled as exact rationals `ℚ`
  (JSON decoding only ever produces finite doubles: `encoding/json` reports an
  error on out-of-range literals).  Arithmetic results, however, can leave the
  double range or be undefined, so every computed result is a `GoFloat`
  (finite, `±Inf`, or `NaN`): the four basic operations compute the exact
  rational value and overflow to `±Inf` at the IEEE-754 round-to-nearest
  boundary `2^1024 - 2^970` (`goFloatOfRat`; rounding of in-range results is
  idealized as exact), `math.Pow` is an external `GoFloat`-valued parameter of
  the embedding (`ExtFns`) whose IEEE-754 values on particular inputs (e.g.
  `Pow(2, 10) = 1024`, `Pow(a, 0) = 1`) are supplied as hypotheses where a
  claim cites them, and `math.Sqrt` is a `ℚ`-valued parameter because the
  IEEE-754 square root of a finite non-negative double is always finite
  (and the `sqrt` branch rejects negatives before calling it).
* The Go functions return JSON text.  The embedding returns the payload in
  structured form: `ToolResult.error msg` for the hand-built
  `{"error": ...}` literals, `ToolResult.ok fields` for a successful
  `json.Marshal` of the response map, and `ToolResult.emptyOutput` for the
  case where `json.Marshal` fails (encoding/json rejects non-finite floats
  with `UnsupportedValueError`), the error is discarded by `jsonResp, _ :=`
  and the function returns `string(nil) = ""`.
* `float64` division of the two non-negative counters in
  `executeTextAnalysis` follows IEEE-754: `0/0 = NaN`, `n/0 = +Inf` for
  `n > 0`, otherwise the (idealized exact) rational quotient; hence the
  result value type `GoFloat` with non-finite points.
* Go `len(s)` on a string counts UTF-8 bytes and is modelled by
  `String.utf8ByteSize`; Go `len([]rune(s))` counts characters and is
  modelled by `String.length`.
-/

/-- A dynamically typed value in a caller-supplied argument bag
(Go `interface{}` restricted to the primitive shapes the tools inspect:
string, number, boolean). -/
inductive GoValue where
  | str (s : String)
  | num (q : ℚ)
  | bool (b : Bool)
  deriving DecidableEq, Repr

/-- Per-call mapping from argument names to untyped values
(Go `map[string]interface{}`; first binding wins, as map keys are unique). -/
abbrev ArgumentBag := List (String × GoValue)

/-- An IEEE-754 double as it appears in a response payload: either a finite
value (idealized as an exact rational) or one of the non-finite points that
`encoding/json` refuses to serialize. -/
inductive GoFloat where
  | finite (q : ℚ)
  | inf
  | negInf
  | nan
  deriving DecidableEq, Repr

/-- A value in a success-response map (the shapes the four tools produce). -/
inductive JsonVal where
  | str (s : String)
  | bool (b : Bool)
  | num (x : GoFloat)
  deriving DecidableEq, Repr

/-- Whether `encoding/json` can serialize a payload value: everything
except a non-finite float. -/
def JsonVal.serializable : JsonVal → Bool
  | .num (.finite _) => true
  | .num _ => false
  | _ => true

/-- Outcome of one tool invocation, at the payload level:
a hand-built error literal, a marshalled success map, or the empty string
produced when `json.Marshal` fails and its error is discarded. -/
inductive ToolResult where
  | error (msg : String)
  | ok (fields : List (String × JsonVal))
  | emptyOutput
  deriving DecidableEq, Repr

/-- Holds exactly on the two payload shapes of the spec's ToolResult
(success payload or ErrorPayload). -/
def ToolResult.isPayload : ToolResult → Bool
  | .error _ => true
  | .ok _ => true
  | .emptyOutput => false

/-- Holds exactly on success payloads. -/
def ToolResult.isOk : ToolResult → Bool
  | .ok _ => true
  | _ => false

/-- Field lookup in a success payload (`none` on errors / empty output). -/
def ToolResult.getField : ToolResult → String → Option JsonVal
  | .ok fields, k => fields.lookup k
  | _, _ => none

/-- Go `jsonResp, _ := json.Marshal(response); return string(jsonResp)`:
succeeds iff every value is serializable, otherwise the error is dropped and
the empty string is returned. -/
def marshal (fields : List (String × JsonVal)) : ToolResult :=
  if fields.all (fun p => p.2.serializable) then .ok fields else .emptyOutput

/-- Go type assertion `args[k].(string)`. -/
def getString (args : ArgumentBag) (k : String) : Option String :=
  match args.lookup k with
  | some (.str s) => some s
  | _ => none

/-- Go type assertion `args[k].(float64)`. -/
def getNum (args : ArgumentBag) (k : String) : Option ℚ :=
  match args.lookup k with
  | some (.num q) => some q
  | _ => none

/-- Go `v, _ := args[k].(float64)`: the zero value `0` when the key is absent
or its value is not a number. -/
def getNumD (args : ArgumentBag) (k : String) : ℚ :=
  (getNum args k).getD 0

/-- The smallest positive real whose IEEE-754 round-to-nearest-even value is
`+Inf`: the midpoint between the largest finite double
`(2^53 - 1) * 2^971 = 2^1024 - 2^971` and `2^1024`, which ties-to-even sends
up to the unrepresentable `2^1024`. -/
def overflowThreshold : ℚ := 2 ^ 1024 - 2 ^ 970

/-- A Go `float64` result computed from finite operands: the exact rational
value when it is in the double range, `±Inf` past the IEEE-754 overflow
boundary (rounding of in-range values is idealized as exact). -/
def goFloatOfRat (q : ℚ) : GoFloat :=
  if overflowThreshold ≤ q then .inf
  else if q ≤ -overflowThreshold then .negInf
  else .finite q

/-- The external pure functions the tools call: the `math` library
transcendentals, the timezone database lookup (`time.LoadLocation` succeeds
or fails on a name), and the two clock formattings of
`time.Now().In(loc)` (functions of the timezone name; the wall-clock instant
is external non-determinism fixed per invocation).  `fpow` interprets
`math.Pow` and can return `NaN` (negative base, non-integer exponent) or
`±Inf` (e.g. `Pow(0, -1)`, overflow); `fsqrt` interprets `math.Sqrt`,
which on a finite non-negative double always returns a finite double, and is
only consulted after the `a < 0` guard. -/
structure ExtFns where
  fsqrt : ℚ → ℚ
  fpow : ℚ → ℚ → GoFloat
  loadLoc : String → Bool
  timeStr : String → String
  isoStr : String → String

/-- Go `executeCalculate(args map[string]interface{}) string`. -/
def executeCalculate (ext : ExtFns) (args : ArgumentBag) : ToolResult :=
  match getString args "operation" with
  | none => .error "operation parameter must be a string"
  | some operation =>
    match getNum args "a" with
    | none => .error "parameter 'a' must be a number"
    | some a =>
      let respond : GoFloat → ToolResult := fun result =>
        marshal [("operation", .str operation), ("a", .num (.finite a)),
                 ("result", .num result)]
      match operation with
      | "add" => respond (goFloatOfRat (a + getNumD args "b"))
      | "subtract" => respond (goFloatOfRat (a - getNumD args "b"))
      | "multiply" => respond (goFloatOfRat (a * getNumD args "b"))
      | "divide" =>
        let b := getNumD args "b"
        if b = 0 then .error "Cannot divide by zero"
        else respond (goFloatOfRat (a / b))
      | "sqrt" =>
        if a < 0 then .error "Cannot calculate square root of negative number"
        else respond (.finite (ext.fsqrt a))
      | "power" => respond (ext.fpow a (getNumD args "b"))
      | _ => .error ("Unknown operation: " ++ operation)

/-- Go `executeGetCurrentTime(args map[string]interface{}) string`. -/
def executeGetCurrentTime (ext : ExtFns) (args : ArgumentBag) : ToolResult :=
  let timezone := (getString args "timezone").getD "UTC"
  if ext.loadLoc timezone then
    marshal [("timezone", .str timezone), ("time", .str (ext.timeStr timezone)),
             ("iso8601", .str (ext.isoStr timezone))]
  else .error ("Invalid timezone: " ++ timezone)

/-- Go `strings.Contains(s, p)` for a single-character pattern `p`:
membership of that character. -/
def goContainsChar (s : String) (c : Char) : Bool :=
  s.toList.contains c

/-- Go `isValid := strings.Contains(email, "@") && strings.Contains(email, ".")
&& len(email) > 5` (byte length). -/
def emailHeuristic (email : String) : Bool :=
  goContainsChar email '@' && goContainsChar email '.' && email.utf8ByteSize > 5

/-- Go `executeValidateEmail(args map[string]interface{}) string`. -/
def executeValidateEmail (args : ArgumentBag) : ToolResult :=
  match getString args "email" with
  | none => .error "email parameter must be a string"
  | some email =>
    let isValid := emailHeuristic email
    marshal [("email", .str email), ("valid", .bool isValid),
             ("message", .str (if isValid
                then "Email format is valid" else "Email format is invalid"))]

/-- Go `unicode.IsSpace`: the Unicode White_Space property, i.e.
U+0009 to U+000D, U+0020, U+0085, U+00A0, U+1680, U+2000 to U+200A, U+2028,
U+2029, U+202F, U+205F and U+3000 (Go's Latin-1 fast path plus the
`unicode.White_Space` range table). -/
def goIsSpace (c : Char) : Bool :=
  let n := c.toNat
  (0x9 <= n && n <= 0xD) || n = 0x20 || n = 0x85 || n = 0xA0 || n = 0x1680
    || (0x2000 <= n && n <= 0x200A) || n = 0x2028 || n = 0x2029 || n = 0x202F
    || n = 0x205F || n = 0x3000

/-- Go `strings.Fields(text)`: the maximal runs of non-whitespace characters
(as character lists; only their number and lengths are consumed). -/
def goFields (text : String) : List (List Char) :=
  (text.toList.splitOnP goIsSpace).filter (fun w => w ≠ [])

/-- Go `strings.Count(text, p)` for a single-character pattern `p`. -/
def goCountChar (text : String) (c : Char) : ℕ :=
  (text.toList.filter (fun d => d = c)).length

/-- Go `float64(n) / float64(d)` for the two non-negative counters:
IEEE-754 gives `NaN` for `0/0`, `+Inf` for `n/0` with `n > 0`, and (idealized
exactly) the rational quotient otherwise. -/
def fdivNat (n d : ℕ) : GoFloat :=
  if d = 0 then (if n = 0 then .nan else .inf)
  else .finite ((n : ℚ) / (d : ℚ))

/-- Go `executeTextAnalysis(args map[string]interface{}) string`. -/
def executeTextAnalysis (args : ArgumentBag) : ToolResult :=
  match getString args "text" with
  | none => .error "text parameter must be a string"
  | some text =>
    let words := goFields text
    marshal [("text_length", .num (.finite (text.utf8ByteSize : ℚ))),
             ("word_count", .num (.finite (words.length : ℚ))),
             ("character_count", .num (.finite (text.length : ℚ))),
             ("sentence_count", .num (.finite
                ((goCountChar text '.' + goCountChar text '!'
                  + goCountChar text '?' : ℕ) : ℚ))),
             ("average_word_len", .num (fdivNat text.utf8ByteSize words.length))]

/-- The four catalog entry names, in declaration order
(`availableFunctions`). -/
def catalogNames : List String :=
  ["calculate", "get_current_time", "validate_email", "text_length_analysis"]

/-- Go `executeFunctionSafely(name string, args map[string]interface{})
string`: the dispatcher. -/
def executeFunctionSafely (ext : ExtFns) (name : String) (args : ArgumentBag) :
    ToolResult :=
  match name with
  | "calculate" => executeCalculate ext args
  | "get_current_time" => executeGetCurrentTime ext args
  | "validate_email" => executeValidateEmail args
  | "text_length_analysis" => executeTextAnalysis args
  | _ => .error ("Unknown function: " ++ name)

/-- A concrete interpretation of the external functions, used to instantiate
the universally quantified theorems at closed inputs.  Its `fpow` agrees
with IEEE-754 `math.Pow` on the points the witnesses and counterexamples
use: integer exponents (the exact value, overflowing past the double range),
`Pow(0, negative) = +Inf`, and `NaN` for a negative base with a non-integer
exponent; the final branch (non-negative base, non-integer exponent, an
irrational value in general) is a stand-in no theorem instantiates.  Its
`fsqrt` agrees with `math.Sqrt` on perfect squares, and its timezone
database resolves exactly `"UTC"`. -/
def extDemo : ExtFns where
  fsqrt := fun a => (Nat.sqrt a.num.toNat : ℚ)
  fpow := fun a b =>
    if b.den = 1 then
      (if a = 0 ∧ b.num < 0 then .inf else goFloatOfRat (a ^ b.num))
    else if a < 0 then .nan
    else .finite 0
  loadLoc := fun s => s = "UTC"
  timeStr := fun _ => "2026-10-11 00:00:00 UTC"
  isoStr := fun _ => "2026-10-11T00:00:00Z"

/-- Holds exactly on string-valued argument entries. -/
def GoValue.isStr : GoValue → Bool
  | .str _ => true
  | _ => false

/-- The canonical three-entry argument bag for one `calculate` call. -/
def calcArgs (op : String) (a b : ℚ) : ArgumentBag :=
  [("operation", .str op), ("a", .num a), ("b", .num b)]

/-- A `calculate` argument bag with the `b` argument absent. -/
def calcArgsNoB (op : String) (a : ℚ) : ArgumentBag :=
  [("operation", .str op), ("a", .num a)]

/-- The success payload `calculate` produces: exactly the keys
`operation`, `a` and `result` (the operand `b` is never echoed). -/
def calcOk (op : String) (a r : ℚ) : ToolResult :=
  .ok [("operation", .str op), ("a", .num (.finite a)),
       ("result", .num (.finite r))]

/-- The outcome of marshalling a `calculate` response whose computed result
is `r`: the `calcOk` payload when `r` is finite, the empty output when `r`
is `NaN` or `±Inf` (which `json.Marshal` rejects). -/
def calcResult (op : String) (a : ℚ) (r : GoFloat) : ToolResult :=
  marshal [("operation", .str op), ("a", .num (.finite a)),
           ("result", .num r)]

-- Helper lemmas shared by several claim theorems.

lemma fdivNat_zero_not_serializable (n : ℕ) :
    (JsonVal.num (fdivNat n 0)).serializable = false := by
  simp only [fdivNat]
  norm_num
  split <;> rfl

lemma fdivNat_pos_serializable (n d : ℕ) (h : d ≠ 0) :
    (JsonVal.num (fdivNat n d)).serializable = true := by
  simp [fdivNat, h, JsonVal.serializable]

lemma fdivNat_pos (n d : ℕ) (h : d ≠ 0) :
    fdivNat n d = .finite ((n : ℚ) / (d : ℚ)) := by
  simp [fdivNat, h]

lemma getString_of_nonstring {args : ArgumentBag} {k : String} {v : GoValue}
    (hl : args.lookup k = some v) (hv : v.isStr = false) :
    getString args k = none := by
  unfold getString
  rw [hl]
  cases v <;> simp_all [GoValue.isStr]

lemma getString_of_absent {args : ArgumentBag} {k : String}
    (hl : args.lookup k = none) : getString args k = none := by
  unfold getString
  rw [hl]

/-- C1: dispatching any name outside the four catalog entries returns an
ErrorPayload that names the unrecognized function; the dispatcher is a total
function, so no input can make it crash or throw. -/
theorem dispatch_unknown_function (ext : ExtFns) (name : String)
    (args : ArgumentBag) (h : name ∉ catalogNames) :
    executeFunctionSafely ext name args =
      .error ("Unknown function: " ++ name) := by
  unfold executeFunctionSafely
  split
  all_goals first
    | rfl
    | simp_all [catalogNames]

/-- Witness for C1 at the spec's own example `dispatch("nonexistent_fn", {})`. -/
theorem dispatch_unknown_function_witness :
    executeFunctionSafely extDemo "nonexistent_fn" [] =
      .error "Unknown function: nonexistent_fn" :=
  dispatch_unknown_function extDemo "nonexistent_fn" [] (by decide)

/-- C3: `calculate("divide", a, 0)` returns the division-by-zero ErrorPayload
and carries no `result` field, and `calculate("sqrt", a, b)` with `a < 0`
returns the negative-square-root ErrorPayload and carries no `result` field;
in both cases no arithmetic result is produced. -/
theorem calculate_divide_zero_sqrt_neg (ext : ExtFns) (a b : ℚ) :
    executeCalculate ext (calcArgs "divide" a 0) =
        .error "Cannot divide by zero"
    ∧ (executeCalculate ext (calcArgs "divide" a 0)).getField "result" = none
    ∧ (a < 0 →
        executeCalculate ext (calcArgs "sqrt" a b) =
            .error "Cannot calculate square root of negative number"
        ∧ (executeCalculate ext (calcArgs "sqrt" a b)).getField "result"
            = none) := by
  refine ⟨?_, ?_, fun ha => ⟨?_, ?_⟩⟩ <;>
    simp [executeCalculate, calcArgs, getString, getNum, getNumD, marshal,
      List.lookup, ToolResult.getField, *]

/-- Witness for C3 at `a = 7`, `b = 1` (so `a < 0` is discharged at `-7`). -/
theorem calculate_divide_zero_sqrt_neg_witness :
    executeCalculate extDemo (calcArgs "divide" 7 0) =
        .error "Cannot divide by zero"
    ∧ executeCalculate extDemo (calcArgs "sqrt" (-7) 1) =
        .error "Cannot calculate square root of negative number" :=
  ⟨(calculate_divide_zero_sqrt_neg extDemo 7 1).1,
   ((calculate_divide_zero_sqrt_neg extDemo (-7) 1).2.2 (by norm_num)).1⟩

/-- C2 as stated is false at `power(-1, 0.5)`: the input is outside the two
excluded cases, yet IEEE-754 `math.Pow(-1, 0.5)` is `NaN`, `json.Marshal`
rejects it, the error is discarded, and `calculate` returns the empty
string — neither a success payload nor an ErrorPayload. -/
theorem calculate_power_nan_counterexample :
    (executeCalculate extDemo (calcArgs "power" (-1) (1 / 2))).isPayload
      = false := by
  have hpow : extDemo.fpow (-1) ((2 : ℚ)⁻¹) = .nan := by norm_num [extDemo]
  simp [executeCalculate, calcArgs, getString, getNum, getNumD, hpow,
    marshal, JsonVal.serializable, ToolResult.isPayload, List.lookup, one_div]

/-- C2 amended: outside the two excluded cases `calculate` computes the
operation's IEEE-754 double value; when that value is finite it returns the
success payload with keys exactly `operation`, `a`, `result` (`b` is not
echoed) and `result` that value — `sqrt` always does, and `power(2, 10)`
yields `1024` — but when the value is `NaN` or `±Inf` (a basic operation
overflowing the double range, or a non-finite `math.Pow` value such as
`Pow(-1, 0.5)` or `Pow(0, -1)`) `json.Marshal` rejects it and the call
returns the empty string instead of a payload. -/
theorem calculate_ops_results (ext : ExtFns) (a b r : ℚ) :
    executeCalculate ext (calcArgs "add" a b)
        = calcResult "add" a (goFloatOfRat (a + b))
    ∧ (goFloatOfRat (a + b) = .finite (a + b) →
        executeCalculate ext (calcArgs "add" a b) = calcOk "add" a (a + b))
    ∧ executeCalculate ext (calcArgs "subtract" a b)
        = calcResult "subtract" a (goFloatOfRat (a - b))
    ∧ executeCalculate ext (calcArgs "multiply" a b)
        = calcResult "multiply" a (goFloatOfRat (a * b))
    ∧ (b ≠ 0 →
        executeCalculate ext (calcArgs "divide" a b)
          = calcResult "divide" a (goFloatOfRat (a / b)))
    ∧ (¬ a < 0 →
        executeCalculate ext (calcArgs "sqrt" a b) = calcOk "sqrt" a (ext.fsqrt a))
    ∧ executeCalculate ext (calcArgs "power" a b)
        = calcResult "power" a (ext.fpow a b)
    ∧ (ext.fpow a b = .finite r →
        executeCalculate ext (calcArgs "power" a b) = calcOk "power" a r)
    ∧ (ext.fpow a b = .nan ∨ ext.fpow a b = .inf ∨ ext.fpow a b = .negInf →
        executeCalculate ext (calcArgs "power" a b) = .emptyOutput)
    ∧ (ext.fpow 2 10 = .finite 1024 →
        executeCalculate ext (calcArgs "power" 2 10) = calcOk "power" 2 1024) := by
  refine ⟨?_, fun hadd => ?_, ?_, ?_, fun hb => ?_, fun ha => ?_, ?_,
    fun hf => ?_, fun hnf => ?_, fun hp => ?_⟩
  case refine_9 =>
    rcases hnf with h | h | h <;>
      simp [executeCalculate, calcArgs, getString, getNum, getNumD,
        marshal, JsonVal.serializable, List.lookup, h]
  all_goals
    simp [executeCalculate, calcArgs, calcOk, calcResult, getString, getNum,
      getNumD, marshal, JsonVal.serializable, List.lookup, *]

/-- Witness for C2's amended theorem: division `8 / 2`, square root of `9`,
in-range addition `3 + 4`, a finite power `3 ^ 2 = 9`, the non-finite
`Pow(-1, 0.5) = NaN` yielding the empty output, and the spec's own
`power(2, 10) = 1024`, all under the demo interpretation. -/
theorem calculate_ops_results_witness :
    executeCalculate extDemo (calcArgs "divide" 8 2)
        = calcResult "divide" 8 (goFloatOfRat (8 / 2))
    ∧ executeCalculate extDemo (calcArgs "sqrt" 9 0) =
        calcOk "sqrt" 9 (extDemo.fsqrt 9)
    ∧ executeCalculate extDemo (calcArgs "add" 3 4) = calcOk "add" 3 (3 + 4)
    ∧ executeCalculate extDemo (calcArgs "power" 3 2) = calcOk "power" 3 9
    ∧ executeCalculate extDemo (calcArgs "power" (-1) (1 / 2)) = .emptyOutput
    ∧ executeCalculate extDemo (calcArgs "power" 2 10) = calcOk "power" 2 1024 :=
  ⟨(calculate_ops_results extDemo 8 2 0).2.2.2.2.1 (by norm_num),
   (calculate_ops_results extDemo 9 0 0).2.2.2.2.2.1 (by norm_num),
   (calculate_ops_results extDemo 3 4 0).2.1
     (by norm_num [goFloatOfRat, overflowThreshold]),
   (calculate_ops_results extDemo 3 2 9).2.2.2.2.2.2.2.1
     (by norm_num [extDemo, goFloatOfRat, overflowThreshold]),
   (calculate_ops_results extDemo (-1) (1 / 2) 0).2.2.2.2.2.2.2.2.1
     (Or.inl (by norm_num [extDemo])),
   (calculate_ops_results extDemo 2 10 1024).2.2.2.2.2.2.2.2.2
     (by norm_num [extDemo, goFloatOfRat, overflowThreshold])⟩

/-- C6 as stated is false at `divide`: with `b` absent the call IS rejected
with an error (the division-by-zero ErrorPayload), because `b` defaults to
zero. -/
theorem calculate_missing_b_divide_counterexample :
    executeCalculate extDemo (calcArgsNoB "divide" 5) =
      .error "Cannot divide by zero" := by
  simp [executeCalculate, calcArgsNoB, getString, getNum, getNumD,
    List.lookup]

/-- C6 amended: for each of `add`, `subtract`, `multiply`, `divide`, `power`,
a missing `b` is never itself flagged (there is no missing-parameter error):
the call computes exactly as if `b` were the number `0` — so `add` returns
`a`, `power` returns `1` (IEEE-754 `pow(a, 0) = 1`), while `divide` then
fails with the division-by-zero error. -/
theorem calculate_missing_b (ext : ExtFns) (a : ℚ) (op : String)
    (hop : op ∈ ["add", "subtract", "multiply", "divide", "power"]) :
    executeCalculate ext (calcArgsNoB op a) = executeCalculate ext (calcArgs op a 0)
    ∧ executeCalculate ext (calcArgsNoB "add" a)
        = calcResult "add" a (goFloatOfRat a)
    ∧ (goFloatOfRat a = .finite a →
        executeCalculate ext (calcArgsNoB "add" a) = calcOk "add" a a)
    ∧ (ext.fpow a 0 = .finite 1 →
        executeCalculate ext (calcArgsNoB "power" a) = calcOk "power" a 1)
    ∧ executeCalculate ext (calcArgsNoB "divide" a) =
        .error "Cannot divide by zero" := by
  refine ⟨?_, ?_, fun hfin => ?_, fun hp => ?_, ?_⟩
  · fin_cases hop <;>
      simp [executeCalculate, calcArgs, calcArgsNoB, getString, getNum,
        getNumD, marshal, JsonVal.serializable, List.lookup]
  all_goals
    simp [executeCalculate, calcArgs, calcArgsNoB, calcOk, calcResult,
      getString, getNum, getNumD, marshal, JsonVal.serializable,
      List.lookup, *]

/-- Witness for C6 at `a = 5`: a missing `b` computes as if `b = 0`, `add`
returns `5` (the value is in the double range), and `power` returns `1`
under the demo `math.Pow`. -/
theorem calculate_missing_b_witness :
    executeCalculate extDemo (calcArgsNoB "power" 5) =
        executeCalculate extDemo (calcArgs "power" 5 0)
    ∧ executeCalculate extDemo (calcArgsNoB "add" 5) = calcOk "add" 5 5
    ∧ executeCalculate extDemo (calcArgsNoB "power" 5) = calcOk "power" 5 1 :=
  ⟨(calculate_missing_b extDemo 5 "power" (by decide)).1,
   (calculate_missing_b extDemo 5 "add" (by decide)).2.2.1
     (by norm_num [goFloatOfRat, overflowThreshold]),
   (calculate_missing_b extDemo 5 "power" (by decide)).2.2.2.1
     (by norm_num [extDemo, goFloatOfRat, overflowThreshold])⟩

/-- C7: `validate_email` returns the success payload
`{email, valid, message}` where `valid` is true iff the string contains `@`,
contains `.`, and `len(email) > 5`, `message` is one of the two fixed strings
determined by `valid`; `"a@b.co"` is valid, `"abc"` is not. -/
theorem validateEmail_heuristic (email : String) :
    (executeValidateEmail [("email", .str email)] =
      .ok [("email", .str email), ("valid", .bool (emailHeuristic email)),
           ("message", .str (if emailHeuristic email
              then "Email format is valid" else "Email format is invalid"))])
    ∧ (emailHeuristic email = true ↔
        goContainsChar email '@' = true ∧ goContainsChar email '.' = true
          ∧ 5 < email.utf8ByteSize)
    ∧ (executeValidateEmail [("email", .str "a@b.co")]).getField "valid"
        = some (.bool true)
    ∧ (executeValidateEmail [("email", .str "abc")]).getField "valid"
        = some (.bool false) := by
  refine ⟨?_, ?_, ?_, ?_⟩
  · simp [executeValidateEmail, getString, marshal, JsonVal.serializable,
      List.lookup]
  · simp [emailHeuristic, Bool.and_eq_true, decide_eq_true_eq, and_assoc]
  all_goals
    simp [executeValidateEmail, ToolResult.getField, getString, marshal,
      JsonVal.serializable, emailHeuristic, goContainsChar, List.lookup,
      String.utf8ByteSize, Char.utf8Size]

/-- C9: `calculate` rejects a missing or non-string `operation`, then a
missing or non-number `a`, each with an ErrorPayload describing the malformed
parameter, and rejects any well-typed `operation` outside the six supported
ones with an ErrorPayload naming the unknown operation. -/
theorem calculate_argument_validation (ext : ExtFns) (args : ArgumentBag)
    (op : String) (a : ℚ) :
    (getString args "operation" = none →
      executeCalculate ext args = .error "operation parameter must be a string")
    ∧ (getString args "operation" = some op → getNum args "a" = none →
        executeCalculate ext args = .error "parameter 'a' must be a number")
    ∧ (getString args "operation" = some op → getNum args "a" = some a →
        op ∉ ["add", "subtract", "multiply", "divide", "sqrt", "power"] →
        executeCalculate ext args = .error ("Unknown operation: " ++ op)) := by
  refine ⟨fun h1 => ?_, fun h1 h2 => ?_, fun h1 h2 h3 => ?_⟩
  · unfold executeCalculate
    rw [h1]
  · unfold executeCalculate
    rw [h1, h2]
  · unfold executeCalculate
    rw [h1, h2]
    split
    all_goals first
      | rfl
      | simp_all

/-- Witness for C9: a bag with `operation` a number, a bag with `a` a string,
and a well-typed bag with the unknown operation `"modulo"`. -/
theorem calculate_argument_validation_witness :
    executeCalculate extDemo [("operation", .num 3)] =
        .error "operation parameter must be a string"
    ∧ executeCalculate extDemo [("operation", .str "add"), ("a", .str "x")] =
        .error "parameter 'a' must be a number"
    ∧ executeCalculate extDemo (calcArgs "modulo" 1 2) =
        .error "Unknown operation: modulo" :=
  ⟨(calculate_argument_validation extDemo [("operation", .num 3)] "add" 0).1
      (by simp [getString, List.lookup]),
   (calculate_argument_validation extDemo
        [("operation", .str "add"), ("a", .str "x")] "add" 0).2.1
      (by simp [getString, List.lookup]) (by simp [getNum, List.lookup]),
   (calculate_argument_validation extDemo (calcArgs "modulo" 1 2) "modulo" 1).2.2
      (by simp [getString, calcArgs, List.lookup])
      (by simp [getNum, calcArgs, List.lookup]) (by decide)⟩

/-- C8: if `timezone` is supplied as a string that the timezone database does
not resolve, `get_current_time` returns an ErrorPayload naming exactly that
string (no default is silently substituted); if it is supplied and resolves,
that same string is used; if the key is absent, the default `"UTC"` is
used. -/
theorem getCurrentTime_timezone (ext : ExtFns) (args : ArgumentBag)
    (tz : String) :
    (getString args "timezone" = some tz → ext.loadLoc tz = false →
      executeGetCurrentTime ext args = .error ("Invalid timezone: " ++ tz))
    ∧ (getString args "timezone" = some tz → ext.loadLoc tz = true →
        executeGetCurrentTime ext args =
          .ok [("timezone", .str tz), ("time", .str (ext.timeStr tz)),
               ("iso8601", .str (ext.isoStr tz))])
    ∧ (args.lookup "timezone" = none → ext.loadLoc "UTC" = true →
        executeGetCurrentTime ext args =
          .ok [("timezone", .str "UTC"), ("time", .str (ext.timeStr "UTC")),
               ("iso8601", .str (ext.isoStr "UTC"))]) := by
  refine ⟨fun h1 h2 => ?_, fun h1 h2 => ?_, fun h1 h2 => ?_⟩ <;>
    simp [executeGetCurrentTime, marshal, JsonVal.serializable,
      getString_of_absent, *]

/-- Witness for C8: under the demo database (which resolves exactly `"UTC"`),
an unresolvable name yields the error naming it, a resolvable supplied name
is used, and an absent key defaults to `"UTC"`. -/
theorem getCurrentTime_timezone_witness :
    executeGetCurrentTime extDemo [("timezone", .str "Mars/Olympus")] =
        .error "Invalid timezone: Mars/Olympus"
    ∧ executeGetCurrentTime extDemo [("timezone", .str "UTC")] =
        .ok [("timezone", .str "UTC"), ("time", .str (extDemo.timeStr "UTC")),
             ("iso8601", .str (extDemo.isoStr "UTC"))]
    ∧ executeGetCurrentTime extDemo [] =
        .ok [("timezone", .str "UTC"), ("time", .str (extDemo.timeStr "UTC")),
             ("iso8601", .str (extDemo.isoStr "UTC"))] :=
  ⟨(getCurrentTime_timezone extDemo [("timezone", .str "Mars/Olympus")]
        "Mars/Olympus").1 (by simp [getString, List.lookup]) (by decide),
   (getCurrentTime_timezone extDemo [("timezone", .str "UTC")] "UTC").2.1
      (by simp [getString, List.lookup]) (by decide),
   (getCurrentTime_timezone extDemo [] "UTC").2.2 rfl (by decide)⟩

/-- C10: a `timezone` entry that is present but not a string is silently
ignored: the call behaves exactly as if the argument had been omitted, so it
computes the time in `"UTC"` and (the timezone database resolving `"UTC"`)
returns a success payload, not an error. -/
theorem getCurrentTime_nonstring_timezone (ext : ExtFns) (args args2 : ArgumentBag)
    (v : GoValue) (hl : args.lookup "timezone" = some v) (hv : v.isStr = false)
    (hl2 : args2.lookup "timezone" = none) :
    executeGetCurrentTime ext args = executeGetCurrentTime ext args2
    ∧ (ext.loadLoc "UTC" = true →
        (executeGetCurrentTime ext args).isOk = true
        ∧ (executeGetCurrentTime ext args).getField "timezone"
            = some (.str "UTC")) := by
  have hs : getString args "timezone" = none := getString_of_nonstring hl hv
  have hs2 : getString args2 "timezone" = none := getString_of_absent hl2
  refine ⟨?_, fun hu => ?_⟩
  · simp [executeGetCurrentTime, hs, hs2]
  · simp [executeGetCurrentTime, hs, hu, marshal, JsonVal.serializable,
      ToolResult.isOk, ToolResult.getField, List.lookup]

/-- Witness for C10: a numeric `timezone` value behaves as an omitted one and
yields the `"UTC"` success payload under the demo database. -/
theorem getCurrentTime_nonstring_timezone_witness :
    executeGetCurrentTime extDemo [("timezone", .num 5)] =
        executeGetCurrentTime extDemo []
    ∧ (executeGetCurrentTime extDemo [("timezone", .num 5)]).isOk = true :=
  ⟨(getCurrentTime_nonstring_timezone extDemo [("timezone", .num 5)] []
      (.num 5) rfl rfl rfl).1,
   ((getCurrentTime_nonstring_timezone extDemo [("timezone", .num 5)] []
      (.num 5) rfl rfl rfl).2 (by decide)).1⟩

/-- C4 as stated is false at the empty text: the outcome is neither a success
payload nor an ErrorPayload.  The word count is zero, so the average-word-length
division produces NaN, `json.Marshal` rejects it, the error is discarded, and
the returned string is empty. -/
theorem textAnalysis_empty_counterexample :
    (executeTextAnalysis [("text", GoValue.str "")]).isPayload = false := by
  decide

/-- C4 amended: `text_length_analysis` never crashes, but it does not always
produce a payload: when the text has at least one whitespace-delimited word it
returns a success payload whose `word_count` is the number of words; when the
text is empty or all whitespace the word count is zero, the average-word-length
division is non-finite (NaN or +Inf), `json.Marshal` rejects it, and the
function returns the empty string — neither payload shape. -/
theorem textAnalysis_outcomes (text : String) :
    (goFields text = [] →
      executeTextAnalysis [("text", .str text)] = .emptyOutput)
    ∧ (goFields text ≠ [] →
        (executeTextAnalysis [("text", .str text)]).isOk = true
        ∧ (executeTextAnalysis [("text", .str text)]).getField "word_count"
            = some (.num (.finite ((goFields text).length : ℚ)))) := by
  have hlookup : getString [("text", GoValue.str text)] "text" = some text := by
    simp [getString, List.lookup]
  constructor
  · intro h
    simp [executeTextAnalysis, hlookup, marshal, JsonVal.serializable, h]
    exact fdivNat_zero_not_serializable _
  · intro h
    have hd : (goFields text).length ≠ 0 := by
      simpa [List.length_eq_zero] using h
    simp [executeTextAnalysis, hlookup, marshal, JsonVal.serializable,
      fdivNat_pos _ _ hd, ToolResult.isOk, ToolResult.getField,
      List.lookup]

/-- Witness for C4's amended theorem: the empty text and the text consisting
of a single no-break space U+00A0 (Unicode whitespace outside ASCII) both
yield the empty output, and `"a b"` yields a success payload. -/
theorem textAnalysis_outcomes_witness :
    executeTextAnalysis [("text", GoValue.str "")] = .emptyOutput
    ∧ executeTextAnalysis [("text", GoValue.str "\u00A0")] = .emptyOutput
    ∧ (executeTextAnalysis [("text", GoValue.str "a b")]).isOk = true :=
  ⟨(textAnalysis_outcomes "").1 (by decide),
   (textAnalysis_outcomes "\u00A0").1 (by decide),
   ((textAnalysis_outcomes "a b").2 (by decide)).1⟩

/-- C5 as stated is false at the two-byte character `"é"`: `text_length`
counts UTF-8 bytes (2), not characters, and differs from `character_count`
(1) on this successful call. -/
theorem textLength_bytes_counterexample :
    (executeTextAnalysis [("text", GoValue.str "é")]).getField "text_length"
        = some (.num (.finite 2))
    ∧ (executeTextAnalysis [("text", GoValue.str "é")]).getField "character_count"
        = some (.num (.finite 1)) := by
  constructor <;>
    simp [executeTextAnalysis, ToolResult.getField, getString, marshal,
      JsonVal.serializable, goFields, goCountChar, goIsSpace, fdivNat,
      List.lookup, List.splitOnP, List.splitOnP.go, String.utf8ByteSize,
      Char.utf8Size, String.length]

/-- C5 amended: on every successful call, `text_length` is the UTF-8 byte
length of the text (Go `len`), `character_count` is the character count, and
the two fields coincide exactly when the byte length equals the character
count (e.g. for ASCII-only text). -/
theorem textLength_fields (text : String) (h : goFields text ≠ []) :
    (executeTextAnalysis [("text", .str text)]).getField "text_length"
        = some (.num (.finite (text.utf8ByteSize : ℚ)))
    ∧ (executeTextAnalysis [("text", .str text)]).getField "character_count"
        = some (.num (.finite (text.length : ℚ)))
    ∧ ((executeTextAnalysis [("text", .str text)]).getField "text_length"
          = (executeTextAnalysis [("text", .str text)]).getField "character_count"
        ↔ text.utf8ByteSize = text.length) := by
  have hlookup : getString [("text", GoValue.str text)] "text" = some text := by
    simp [getString, List.lookup]
  have hd : (goFields text).length ≠ 0 := by
    simpa [List.length_eq_zero] using h
  refine ⟨?_, ?_, ?_⟩ <;>
    simp [executeTextAnalysis, hlookup, marshal, JsonVal.serializable,
      fdivNat_pos _ _ hd, ToolResult.getField, List.lookup,
      Nat.cast_inj]

/-- Witness for C5's amended theorem at the ASCII text `"abc"`, where the two
fields agree. -/
theorem textLength_fields_witness :
    (executeTextAnalysis [("text", GoValue.str "abc")]).getField "text_length"
        = some (.num (.finite ("abc".utf8ByteSize : ℚ)))
    ∧ ((executeTextAnalysis [("text", GoValue.str "abc")]).getField "text_length"
          = (executeTextAnalysis [("text", GoValue.str "abc")]).getField
              "character_count"
        ↔ "abc".utf8ByteSize = "abc".length) :=
  ⟨(textLength_fields "abc" (by decide)).1,
   (textLength_fields "abc" (by decide)).2.2⟩
